import Mathlib

/-!
Verification of the `maction` library: a shallow embedding of its three
utilities (`createPrefix`, `createMaction`, `matchableReducerFactory`)
and of the older variants (`withPrefix`, `maction`, `matchedReducerFactory`),
together with proofs of the specified properties.
-/

namespace Maction

/-- A JavaScript runtime value, as far as action payload fields and creator
arguments are concerned. -/
inductive JsValue where
  | undef : JsValue
  | str : String → JsValue
  | num : Int → JsValue
  | jsBool : Bool → JsValue
  deriving DecidableEq, Repr

/-- A redux `AnyAction`: a record with a string `type` field plus arbitrary
additional fields, modelled as an association list from field names to
values. -/
structure Action where
  type : String
  fields : List (String × JsValue)
  deriving DecidableEq, Repr

/-- `ActionCreatorFn`: a JS function taking any argument list (missing
arguments are `undef`) and returning an action; a call may also throw,
modelled by `Except`. -/
def ActionCreatorFn : Type := List JsValue → Except String Action

/-- `MatchableAction`: the action creator together with the `matches`
predicate that `createMaction` attaches to it via `Object.assign`. -/
structure MatchableAction where
  creator : ActionCreatorFn
  «matches» : Action → Except String Bool

/-- `createPrefix` from `src/index.ts`: returns a function concatenating the
bound prefix in front of an action type, via a template literal. -/
def createPrefix (p : String) : String → String :=
  fun actionType => s!"{p}{actionType}"

/-- `createMaction` from `src/index.ts`: attaches a `matches` predicate that
invokes the wrapped creator with no arguments and compares the candidate
action's `type` with the reference action's `type` using `===`. An error
thrown by the creator propagates out of `matches`. -/
def createMaction (actionCreator : ActionCreatorFn) : MatchableAction :=
  { creator := actionCreator
    «matches» := fun action =>
      match actionCreator [] with
      | Except.ok ref => Except.ok (action.type == ref.type)
      | Except.error e => Except.error e }

/-- `reduceForActionBuilder` from `src/index.ts`: takes a matchable action
creator and a reducer function and returns the reducer unchanged. -/
def reduceForActionBuilder (State : Type) :
    MatchableAction → (State → Action → State) → (State → Action → State) :=
  fun _actionCreator reduce => reduce

/-- `matchableReducerFactory` from `src/index.ts`: returns
`reduceForActionBuilder` instantiated at the given state type. -/
def matchableReducerFactory (State : Type) :
    MatchableAction → (State → Action → State) → (State → Action → State) :=
  reduceForActionBuilder State

/-- `withPrefix` from the older variant of the library. -/
def withPrefix (p : String) : String → String :=
  fun actionType => s!"{p}{actionType}"

/-- `maction` from the older variant of the library. -/
def maction (actionCreator : ActionCreatorFn) : MatchableAction :=
  { creator := actionCreator
    «matches» := fun action =>
      match actionCreator [] with
      | Except.ok ref => Except.ok (action.type == ref.type)
      | Except.error e => Except.error e }

/-- `reduceSlice` from the older variant of the library. -/
def reduceSlice (State : Type) :
    MatchableAction → (State → Action → State) → (State → Action → State) :=
  fun _actionCreator reduce => reduce

/-- The object returned by the older `matchedReducerFactory`: a record with a
single `reduceForAction` property. -/
structure MatchedReducerObj (State : Type) where
  reduceForAction : MatchableAction → (State → Action → State) → (State → Action → State)

/-- `matchedReducerFactory` from the older variant of the library. -/
def matchedReducerFactory (State : Type) : MatchedReducerObj State :=
  { reduceForAction := reduceSlice State }

/-- A creator whose `type` field is the same for every argument list (the
invariant §3 of the spec states for action constructors). -/
def ArgInvariant (c : ActionCreatorFn) : Prop :=
  ∀ xs ys r₁ r₂, c xs = Except.ok r₁ → c ys = Except.ok r₂ → r₁.type = r₂.type

/-- An action creator with an observable side effect: each call threads a
state of type `σ` in addition to possibly throwing. -/
def EffActionCreator (σ : Type) : Type := List JsValue → σ → Except String Action × σ

/-- The `matches` predicate `createMaction` attaches, for an effectful
creator: each call invokes the creator exactly once with no arguments and
compares `type` fields. -/
def matchesEff {σ : Type} (actionCreator : EffActionCreator σ) (action : Action)
    (s : σ) : Except String Bool × σ :=
  let res := actionCreator [] s
  (match res.1 with
   | Except.ok ref => Except.ok (action.type == ref.type)
   | Except.error e => Except.error e, res.2)

/-- The state after `n` successive calls to `matches` on the same candidate
action. -/
def runMatchesN {σ : Type} (actionCreator : EffActionCreator σ) (action : Action) :
    Nat → σ → σ
  | 0, s => s
  | n + 1, s => runMatchesN actionCreator action n (matchesEff actionCreator action s).2

/-- Instrument a pure creator with an invocation counter: each call increments
the counter by one. -/
def countingCreator (c : ActionCreatorFn) : EffActionCreator Nat :=
  fun args n => (c args, n + 1)

/-- A JS function object on the heap: its call behavior together with its
`matches` own-property slot (absent before `Object.assign`, present after). -/
structure CreatorObj where
  call : ActionCreatorFn
  matchesProp : Option (Action → Except String Bool)

/-- `createMaction` at the heap level: `Object.assign(actionCreator, {...})`
copies the `matches` property onto the object the reference `r` points to,
in place, and returns the reference `r` itself. -/
def createMactionRef (heap : List CreatorObj) (r : Nat) : List CreatorObj × Nat :=
  match heap[r]? with
  | some obj =>
      (heap.set r { obj with matchesProp := some (createMaction obj.call).«matches» }, r)
  | none => (heap, r)

/-- A concrete creator used in witnesses: type `"INCREMENT"`, payload the
first argument (or `undef` when called with no arguments). -/
def incCreator : ActionCreatorFn :=
  fun args => Except.ok { type := "INCREMENT", fields := [("amount", args.headD JsValue.undef)] }

/-- A concrete creator that throws when called with no arguments. -/
def needyCreator : ActionCreatorFn :=
  fun args =>
    match args with
    | [] => Except.error "missing required argument"
    | v :: _ => Except.ok { type := "SET", fields := [("value", v)] }

/-- A concrete heap with one plain creator object, before wrapping. -/
def demoHeap : List CreatorObj :=
  [{ call := incCreator, matchesProp := none }]

/-- The action `incCreator` produces when called with the argument `5`. -/
def incAction : Action :=
  { type := "INCREMENT", fields := [("amount", JsValue.num 5)] }

/-- The reference action `incCreator` produces when called with no
arguments. -/
def incRefAction : Action :=
  { type := "INCREMENT", fields := [("amount", JsValue.undef)] }

/-- C2: `createPrefix p` applied to a label `s` is exactly the concatenation
of `p` and `s`, with no trimming, escaping, or validation of either input. -/
theorem createPrefix_eq_concat (p s : String) : createPrefix p s = p ++ s := by
  show "" ++ p ++ "" ++ s ++ "" = p ++ s
  rw [String.append_empty, String.append_empty, String.empty_append]

/-- C10: prefixing is a concatenation homomorphism with the empty string as
identity: composing two prefixers equals the prefixer of the concatenated
prefixes, and the empty prefixer is the identity on labels. -/
theorem createPrefix_homomorphism (p q s : String) :
    createPrefix p (createPrefix q s) = createPrefix (p ++ q) s ∧
    createPrefix "" s = s := by
  constructor
  · rw [createPrefix_eq_concat, createPrefix_eq_concat, createPrefix_eq_concat,
      String.append_assoc]
  · rw [createPrefix_eq_concat, String.empty_append]

/-- C1: for a creator `c` whose returned `type` is argument-invariant and
whose zero-argument call returns the reference action `ref`, `matches a`
returns `true` exactly when `a.type` equals `ref.type` and `false` exactly
when it differs, whatever other fields `a` has. -/
theorem matches_true_iff_type_eq (c : ActionCreatorFn) (a ref : Action)
    (hinv : ArgInvariant c) (h₀ : c [] = Except.ok ref) :
    ((createMaction c).«matches» a = Except.ok true ↔ a.type = ref.type) ∧
    ((createMaction c).«matches» a = Except.ok false ↔ a.type ≠ ref.type) := by
  simp [createMaction, h₀, beq_iff_eq]

/-- C1 witness: instantiated at `incCreator` and the concrete candidate
`incAction`. -/
theorem matches_true_iff_type_eq_witness :
    ((createMaction incCreator).«matches» incAction = Except.ok true ↔
      incAction.type = incRefAction.type) ∧
    ((createMaction incCreator).«matches» incAction = Except.ok false ↔
      incAction.type ≠ incRefAction.type) :=
  matches_true_iff_type_eq incCreator incAction incRefAction
    (by
      intro xs ys r₁ r₂ h₁ h₂
      simp only [incCreator, Except.ok.injEq] at h₁ h₂
      rw [← h₁, ← h₂])
    rfl

/-- C3: invoking the wrapped value returned by `createMaction` with any
argument list gives exactly what the original creator gives on that list:
wrapping is transparent to ordinary calls. -/
theorem createMaction_transparent (c : ActionCreatorFn) (xs : List JsValue) :
    (createMaction c).creator xs = c xs := rfl

/-- C4: the pairing function returned by `matchableReducerFactory` returns
the reducer function itself unchanged, so on every state and action it
produces exactly what the reducer produces. -/
theorem matchableReducerFactory_identity (State : Type) (m : MatchableAction)
    (fn : State → Action → State) :
    matchableReducerFactory State m fn = fn ∧
    ∀ (s : State) (a : Action), matchableReducerFactory State m fn s a = fn s a :=
  ⟨rfl, fun _ _ => rfl⟩

/-- C5: when the creator throws on a zero-argument call, every `matches`
call fails with that same error, for any candidate action: the failure
propagates and is not masked or recovered. -/
theorem matches_propagates_creator_error (c : ActionCreatorFn) (e : String)
    (a : Action) (h : c [] = Except.error e) :
    (createMaction c).«matches» a = Except.error e := by
  simp [createMaction, h]

/-- C5 witness: instantiated at `needyCreator`, which throws when called with
no arguments. -/
theorem matches_propagates_creator_error_witness :
    (createMaction needyCreator).«matches» incAction =
      Except.error "missing required argument" :=
  matches_propagates_creator_error needyCreator "missing required argument"
    incAction rfl

/-- C6: each `matches` call invokes the wrapped creator with no arguments
exactly once: a single call advances the creator's effect state exactly as
one creator invocation does, and `k` successive `matches` calls on a creator
instrumented with an invocation counter increment the counter by exactly `k`
(no memoization of the reference type). -/
theorem matches_invokes_creator_once {σ : Type} (ec : EffActionCreator σ)
    (c : ActionCreatorFn) (a : Action) (s : σ) (n k : Nat) :
    (matchesEff ec a s).2 = (ec [] s).2 ∧
    (matchesEff (countingCreator c) a n).2 = n + 1 ∧
    runMatchesN (countingCreator c) a k n = n + k := by
  refine ⟨rfl, rfl, ?_⟩
  induction k generalizing n with
  | zero => rfl
  | succ k ih =>
    show runMatchesN (countingCreator c) a k (n + 1) = n + (k + 1)
    rw [ih, Nat.add_right_comm, Nat.add_assoc]

/-- C7 counterexample: `createMactionRef` on a concrete heap returns the very
reference it was given, and the object at that reference now carries the
`matches` property it lacked before: the returned value is not distinct from
the input, and the input constructor is modified. -/
theorem createMactionRef_returns_same_ref :
    (createMactionRef demoHeap 0).2 = 0 ∧
    ((createMactionRef demoHeap 0).1[0]?).map (fun o => o.matchesProp.isSome) =
      some true ∧
    (demoHeap[0]?).map (fun o => o.matchesProp.isSome) = some false :=
  ⟨rfl, rfl, rfl⟩

/-- C7 amended: `createMaction` returns the same reference it was given
(`Object.assign` returns its target), after mutating the object at that
reference in place: its call behavior is preserved and its `matches`
property is now the type-comparing predicate. -/
theorem createMactionRef_mutates_in_place (heap : List CreatorObj) (r : Nat)
    (obj : CreatorObj) (h : heap[r]? = some obj) :
    (createMactionRef heap r).2 = r ∧
    (createMactionRef heap r).1[r]? =
      some { call := obj.call
             matchesProp := some (createMaction obj.call).«matches» } := by
  have hr : r < heap.length := by
    by_contra hge
    rw [List.getElem?_eq_none (Nat.le_of_not_lt hge)] at h
    exact Option.noConfusion h
  refine ⟨by simp [createMactionRef, h], ?_⟩
  simp [createMactionRef, h, List.getElem?_set_self, hr]

/-- C7 amended witness: instantiated at the concrete one-object heap. -/
theorem createMactionRef_mutates_in_place_witness :
    (createMactionRef demoHeap 0).2 = 0 ∧
    (createMactionRef demoHeap 0).1[0]? =
      some { call := incCreator
             matchesProp := some (createMaction incCreator).«matches» } :=
  createMactionRef_mutates_in_place demoHeap 0
    { call := incCreator, matchesProp := none } rfl

/-- C8: the result of `matches` depends only on the candidate's `type`
field: two candidates with equal `type` get equal results, whatever their
other fields are, for every creator (throwing or not). -/
theorem matches_depends_only_on_type (c : ActionCreatorFn) (a b : Action)
    (h : a.type = b.type) :
    (createMaction c).«matches» a = (createMaction c).«matches» b := by
  simp only [createMaction]
  cases c [] <;> simp [h]

/-- C8 witness: two candidates sharing the type `"INCREMENT"` but with
different payload fields. -/
theorem matches_depends_only_on_type_witness :
    (createMaction incCreator).«matches» incAction =
      (createMaction incCreator).«matches» { type := "INCREMENT", fields := [] } :=
  matches_depends_only_on_type incCreator incAction
    { type := "INCREMENT", fields := [] } rfl

/-- C9: the older variant of the library and the current one are
extensionally equal: `withPrefix` equals `createPrefix`, `maction` equals
`createMaction`, and the pairing function `matchedReducerFactory` exposes as
`reduceForAction` equals the one `matchableReducerFactory` returns, at every
state type. -/
theorem old_new_variants_equal :
    withPrefix = createPrefix ∧ maction = createMaction ∧
    ∀ State : Type,
      (matchedReducerFactory State).reduceForAction = matchableReducerFactory State :=
  ⟨rfl, rfl, fun _ => rfl⟩

end Maction
